import Mathlib

/-!
Verification of the DSP core of the DPlugin synthesizer
(src/PluginProcessor.h / src/PluginProcessor.cpp).

The C++ code is embedded shallowly over exact rationals `ℚ`: `float` /
`double` arithmetic is modelled as exact arithmetic, so the theorems are
about the algorithm the code implements, not about floating-point rounding.

Pure functions that the code calls from outside the repository (libm's
`std::sin`, JUCE's `getMidiNoteInHertz`, `IIRCoefficients::makeLowPass`,
`IIRFilter::processSingleSampleRaw`'s arithmetic, `decibelsToGain`) are kept
abstract as fields of a `DspEnv` record: every theorem holds for every
interpretation of these externals, which is exactly what the repository's
own code determines.
-/

/-- The constant `hfCompA0 = 2.5f` from the anonymous namespace of
`PluginProcessor.cpp`. -/
def hfCompA0 : ℚ := 2.5

/-- The constant `hfCompA1 = -1.5f` from the anonymous namespace of
`PluginProcessor.cpp`. -/
def hfCompA1 : ℚ := -1.5

/-- The constant `minNorm = 0.001f` from the anonymous namespace of
`PluginProcessor.cpp`. -/
def minNorm : ℚ := 0.001

/-- `juce::jmax (a, b)`: `a < b ? b : a`. -/
def jmax (a b : ℚ) : ℚ := if a < b then b else a

/-- `juce::jlimit (lower, upper, v)`:
`v < lower ? lower : (upper < v ? upper : v)`. -/
def jlimit (lower upper v : ℚ) : ℚ :=
  if v < lower then lower else if upper < v then upper else v

/-- `juce::jmap (v, s0, s1, t0, t1) = t0 + (t1 - t0) * (v - s0) / (s1 - s0)`. -/
def jmap (v s0 s1 t0 t1 : ℚ) : ℚ :=
  t0 + (t1 - t0) * (v - s0) / (s1 - s0)

/-- Coefficients of a `juce::IIRFilter` (the five normalised coefficients
produced by `juce::IIRCoefficients`).  Their numeric content is produced by
library code outside this repository, so nothing here inspects them. -/
structure IIRCoefficients where
  c0 : ℚ
  c1 : ℚ
  c2 : ℚ
  c3 : ℚ
  c4 : ℚ
deriving DecidableEq, Repr

/-- Abstract interpretations of the pure library functions the repository's
DSP code calls but does not define:

* `sin2pi x` models `std::sin (juce::MathConstants<float>::twoPi * x)`,
  i.e. `sin (2·π·x)`;
* `noteToHz n` models `juce::MidiMessage::getMidiNoteInHertz (n)`, which the
  JUCE library defines as `440 · 2^((n − 69)/12)`;
* `makeLowPass sr cutoff` models `juce::IIRCoefficients::makeLowPass`, the
  library constructor of second-order low-pass coefficients for the given
  sample rate and cutoff frequency;
* `dbToGain g` models `juce::Decibels::decibelsToGain (g) = 10^(g/20)`;
* `iirStep coeffs input (v1, v2)` models the arithmetic of
  `juce::IIRFilter::processSingleSampleRaw`, returning the output sample and
  the updated two-sample delay line. -/
structure DspEnv where
  sin2pi : ℚ → ℚ
  noteToHz : ℤ → ℚ
  makeLowPass : ℚ → ℚ → IIRCoefficients
  dbToGain : ℚ → ℚ
  iirStep : IIRCoefficients → ℚ → ℚ × ℚ → ℚ × (ℚ × ℚ)

/-- A concrete (arbitrary) interpretation of the external functions, used
only to instantiate universally quantified statements at concrete inputs. -/
def sampleEnv : DspEnv where
  sin2pi := fun _ => 0
  noteToHz := fun n => (n : ℚ)
  makeLowPass := fun sr cutoff => ⟨sr, cutoff, 0, 0, 0⟩
  dbToGain := fun _ => 1
  iirStep := fun _ input s => (input + s.1, (s.2, input))

/-- State of `AntiAliasedSawOscillator` (src/PluginProcessor.h):
`phase`, `osc`, `previousInput`, `w`, `beta`, all initialised to `0.0f`. -/
structure AntiAliasedSawOscillator where
  phase : ℚ := 0
  osc : ℚ := 0
  previousInput : ℚ := 0
  w : ℚ := 0
  beta : ℚ := 0
deriving DecidableEq, Repr

namespace AntiAliasedSawOscillator

/-- `AntiAliasedSawOscillator::setFrequency (newFrequency, newSampleRate)`:
returns immediately when `newSampleRate <= 0`; otherwise clamps the
normalised frequency into `[0, 0.49]` and derives the feedback gain
`beta = 13 · (0.5 − w)⁴`. -/
def setFrequency (s : AntiAliasedSawOscillator) (newFrequency newSampleRate : ℚ) :
    AntiAliasedSawOscillator :=
  if newSampleRate ≤ 0 then s
  else
    let normalised := newFrequency / newSampleRate
    let w := jlimit 0 0.49 normalised
    let diff := 0.5 - w
    { s with w := w, beta := 13 * diff * diff * diff * diff }

/-- `AntiAliasedSawOscillator::getNextSample ()`: one sample of the
feedback-FM anti-aliased saw, returning the sample and the updated state. -/
def getNextSample (env : DspEnv) (s : AntiAliasedSawOscillator) :
    ℚ × AntiAliasedSawOscillator :=
  let feedbackPhase := s.phase + s.osc * s.beta
  let input := env.sin2pi feedbackPhase
  let osc := 0.5 * (s.osc + input)
  let filtered := hfCompA0 * osc + hfCompA1 * s.previousInput
  let previousInput := osc
  let dc := 0.376 - 0.752 * s.w
  let norm := jmax minNorm (1 - 2 * s.w)
  let sample := (filtered - dc) / norm
  let phase := s.phase + s.w
  let phase := if 1 ≤ phase then phase - 1 else phase
  (sample, { s with phase := phase, osc := osc, previousInput := previousInput })

/-- `AntiAliasedSawOscillator::reset ()`: zeroes `phase`, `osc`,
`previousInput` (and nothing else). -/
def reset (s : AntiAliasedSawOscillator) : AntiAliasedSawOscillator :=
  { s with phase := 0, osc := 0, previousInput := 0 }

end AntiAliasedSawOscillator

/-- `juce::jmax` agrees with `max`. -/
theorem jmax_eq_max (a b : ℚ) : jmax a b = max a b := by
  rw [jmax, max_def]
  split_ifs <;> linarith

/-- For `lo ≤ hi`, `juce::jlimit` is the usual clamp `min hi (max lo v)`. -/
theorem jlimit_eq_min_max (lo hi v : ℚ) (h : lo ≤ hi) :
    jlimit lo hi v = min hi (max lo v) := by
  rw [jlimit, min_def, max_def]
  split_ifs <;> linarith

/-- **C1.**  For every SawCore state, `getNextSample` performs exactly the
nine specified steps: with `feedbackPhase = phase + osc·beta`,
`input = sin(2π·feedbackPhase)` and the new smoother value
`osc' = 0.5·(osc + input)`, the returned sample equals
`(2.5·osc' − 1.5·previousInput − (0.376 − 0.752·w)) / max(0.001, 1 − 2·w)`;
`previousInput` becomes `osc'`; the phase advances by `w` with a single
subtraction of `1` when `phase + w ≥ 1`; and `w` and `beta` are unchanged. -/
theorem sawCore_getNextSample_steps (env : DspEnv) (s : AntiAliasedSawOscillator) :
    (AntiAliasedSawOscillator.getNextSample env s).1 =
        (2.5 * (0.5 * (s.osc + env.sin2pi (s.phase + s.osc * s.beta)))
            - 1.5 * s.previousInput - (0.376 - 0.752 * s.w))
          / max 0.001 (1 - 2 * s.w) ∧
    (AntiAliasedSawOscillator.getNextSample env s).2.osc =
        0.5 * (s.osc + env.sin2pi (s.phase + s.osc * s.beta)) ∧
    (AntiAliasedSawOscillator.getNextSample env s).2.previousInput =
        0.5 * (s.osc + env.sin2pi (s.phase + s.osc * s.beta)) ∧
    (AntiAliasedSawOscillator.getNextSample env s).2.phase =
        (if 1 ≤ s.phase + s.w then s.phase + s.w - 1 else s.phase + s.w) ∧
    (AntiAliasedSawOscillator.getNextSample env s).2.w = s.w ∧
    (AntiAliasedSawOscillator.getNextSample env s).2.beta = s.beta := by
  refine ⟨?_, rfl, rfl, rfl, rfl, rfl⟩
  simp only [AntiAliasedSawOscillator.getNextSample, hfCompA0, hfCompA1, minNorm,
    jmax_eq_max]
  ring_nf

/-- **C2.**  `setFrequency (f, sr)` leaves the whole state unchanged when
`sr ≤ 0`; when `sr > 0` it sets `w = clamp (f/sr, 0, 0.49)` and
`beta = 13·(0.5 − w)⁴` and changes nothing else; consequently `w ∈ [0, 0.49]`
after every call with `sr > 0`. -/
theorem sawCore_setFrequency_spec (s : AntiAliasedSawOscillator) (f sr : ℚ) :
    (sr ≤ 0 → AntiAliasedSawOscillator.setFrequency s f sr = s) ∧
    (0 < sr →
      (AntiAliasedSawOscillator.setFrequency s f sr).w =
          min 0.49 (max 0 (f / sr)) ∧
      (AntiAliasedSawOscillator.setFrequency s f sr).beta =
          13 * (0.5 - min 0.49 (max 0 (f / sr))) ^ 4 ∧
      (AntiAliasedSawOscillator.setFrequency s f sr).phase = s.phase ∧
      (AntiAliasedSawOscillator.setFrequency s f sr).osc = s.osc ∧
      (AntiAliasedSawOscillator.setFrequency s f sr).previousInput =
          s.previousInput ∧
      0 ≤ (AntiAliasedSawOscillator.setFrequency s f sr).w ∧
      (AntiAliasedSawOscillator.setFrequency s f sr).w ≤ 0.49) := by
  have hclamp : ∀ v : ℚ, jlimit 0 0.49 v = min 0.49 (max 0 v) := fun v =>
    jlimit_eq_min_max 0 0.49 v (by norm_num)
  constructor
  · intro h
    simp [AntiAliasedSawOscillator.setFrequency, h]
  · intro h
    have hne : ¬ sr ≤ 0 := not_le.mpr h
    refine ⟨?_, ?_, ?_, ?_, ?_, ?_, ?_⟩ <;>
      simp only [AntiAliasedSawOscillator.setFrequency, if_neg hne]
    · exact hclamp _
    · rw [hclamp]
      ring
    · rw [hclamp]
      exact le_min (by norm_num) (le_max_left _ _)
    · rw [hclamp]
      exact min_le_left _ _

/-- **C2 witness.** -/
theorem sawCore_setFrequency_spec_witness :
    (AntiAliasedSawOscillator.setFrequency {} 1 4).w = min 0.49 (max 0 (1 / 4)) ∧
    (AntiAliasedSawOscillator.setFrequency {} 1 (-1)) = {} :=
  ⟨((sawCore_setFrequency_spec {} 1 4).2 (by norm_num)).1,
    (sawCore_setFrequency_spec {} 1 (-1)).1 (by norm_num)⟩

/-- **C5 counterexample.**  The claim says `reset()` leaves `w` (and `beta`)
zero.  But `AntiAliasedSawOscillator::reset` only zeroes `phase`, `osc` and
`previousInput`: after `setFrequency (1, 4)` (so `w = 0.25`) followed by
`reset ()`, the stored `w` is still `0.25 ≠ 0`. -/
theorem sawCore_reset_counterexample :
    (AntiAliasedSawOscillator.reset
        (AntiAliasedSawOscillator.setFrequency {} 1 4)).w ≠ 0 := by
  norm_num [AntiAliasedSawOscillator.reset, AntiAliasedSawOscillator.setFrequency,
    jlimit]

/-- **C5 (amended).**  Immediately after `reset()`, `phase`, `osc` and
`previousInput` are zero; `w` and `beta` are left unchanged (so they are zero
only if they already were, e.g. in the initial state). -/
theorem sawCore_reset_spec (s : AntiAliasedSawOscillator) :
    (AntiAliasedSawOscillator.reset s).phase = 0 ∧
    (AntiAliasedSawOscillator.reset s).osc = 0 ∧
    (AntiAliasedSawOscillator.reset s).previousInput = 0 ∧
    (AntiAliasedSawOscillator.reset s).w = s.w ∧
    (AntiAliasedSawOscillator.reset s).beta = s.beta :=
  ⟨rfl, rfl, rfl, rfl, rfl⟩

/-- The loop `while (shiftedPhase >= 1.0f) shiftedPhase -= 1.0f;` in
`AntiAliasedPulseOscillator::getNextSample`. -/
def wrapPhase (x : ℚ) : ℚ :=
  if 1 ≤ x then wrapPhase (x - 1) else x
termination_by (⌈x⌉).toNat
decreasing_by
  simp_wf
  linarith

/-- On nonnegative inputs the wrap loop reduces its argument mod 1. -/
theorem wrapPhase_bounded :
    ∀ (n : ℕ) (x : ℚ), (⌈x⌉).toNat ≤ n → 0 ≤ x → wrapPhase x = Int.fract x := by
  intro n
  induction n with
  | zero =>
    intro x hn hx
    have hlt : x < 1 := by
      by_contra hge
      have h0 : 0 < ⌈x⌉ := Int.ceil_pos.mpr (by linarith)
      omega
    rw [wrapPhase, if_neg (not_le.mpr hlt), Int.fract_eq_self.mpr ⟨hx, hlt⟩]
  | succ n ih =>
    intro x hn hx
    by_cases h : 1 ≤ x
    · have hceil : 0 < ⌈x⌉ := Int.ceil_pos.mpr (by linarith)
      have hrec : (⌈x - 1⌉).toNat ≤ n := by
        have h1 : ⌈x - 1⌉ = ⌈x⌉ - 1 := by
          rw [show x - 1 = x - ((1 : ℤ) : ℚ) by norm_num, Int.ceil_sub_int]
        omega
      rw [wrapPhase, if_pos h, ih (x - 1) hrec (by linarith)]
      rw [show x - 1 = x - ((1 : ℤ) : ℚ) by norm_num, Int.fract_sub_int]
    · rw [wrapPhase, if_neg h, Int.fract_eq_self.mpr ⟨hx, not_le.mp h⟩]

/-- On nonnegative inputs the wrap loop computes `Int.fract`. -/
theorem wrapPhase_eq_fract (x : ℚ) (hx : 0 ≤ x) : wrapPhase x = Int.fract x :=
  wrapPhase_bounded (⌈x⌉).toNat x le_rfl hx

/-- A single conditional subtraction of 1 agrees with `Int.fract` on `[0, 2)`. -/
theorem condSub_eq_fract (s : ℚ) (h0 : 0 ≤ s) (h2 : s < 2) :
    (if 1 ≤ s then s - 1 else s) = Int.fract s := by
  by_cases h : 1 ≤ s
  · rw [if_pos h]
    calc s - 1 = Int.fract (s - 1) :=
          (Int.fract_eq_self.mpr ⟨by linarith, by linarith⟩).symm
      _ = Int.fract s := by
          rw [show s - 1 = s - ((1 : ℤ) : ℚ) by norm_num, Int.fract_sub_int]
  · rw [if_neg h, Int.fract_eq_self.mpr ⟨h0, not_le.mp h⟩]

/-- State of `AntiAliasedPulseOscillator` (src/PluginProcessor.h): two
`AntiAliasedSawOscillator` cores and the pulse width, initialised to `0.5f`. -/
structure AntiAliasedPulseOscillator where
  leadingEdge : AntiAliasedSawOscillator := {}
  trailingEdge : AntiAliasedSawOscillator := {}
  pulseWidth : ℚ := 0.5
deriving DecidableEq, Repr

namespace AntiAliasedPulseOscillator

/-- `AntiAliasedPulseOscillator::setFrequency`: forwards to both cores. -/
def setFrequency (p : AntiAliasedPulseOscillator) (newFrequency newSampleRate : ℚ) :
    AntiAliasedPulseOscillator :=
  { p with
    leadingEdge := p.leadingEdge.setFrequency newFrequency newSampleRate
    trailingEdge := p.trailingEdge.setFrequency newFrequency newSampleRate }

/-- `AntiAliasedPulseOscillator::setPulseWidth`: clamps into `[0.01, 0.99]`. -/
def setPulseWidth (p : AntiAliasedPulseOscillator) (newPulseWidth : ℚ) :
    AntiAliasedPulseOscillator :=
  { p with pulseWidth := jlimit 0.01 0.99 newPulseWidth }

/-- `AntiAliasedPulseOscillator::getNextSample ()`: one full leading-edge
step, then the trailing core's saw body run at the shifted phase, and the
clamped difference of the two edges. -/
def getNextSample (env : DspEnv) (p : AntiAliasedPulseOscillator) :
    ℚ × AntiAliasedPulseOscillator :=
  let leadingStep := p.leadingEdge.getNextSample env
  let leading := leadingStep.1
  let leadingEdge := leadingStep.2
  let shiftedPhase := wrapPhase (leadingEdge.phase + p.pulseWidth)
  let t := p.trailingEdge
  let feedbackPhase := shiftedPhase + t.osc * t.beta
  let input := env.sin2pi feedbackPhase
  let tOsc := 0.5 * (t.osc + input)
  let filtered := hfCompA0 * tOsc + hfCompA1 * t.previousInput
  let tPreviousInput := tOsc
  let dc := 0.376 - 0.752 * t.w
  let norm := jmax minNorm (1 - 2 * t.w)
  let trailing := (filtered - dc) / norm
  let tPhase := shiftedPhase + t.w
  let tPhase := if 1 ≤ tPhase then tPhase - 1 else tPhase
  let pulse := jlimit (-1) 1 (leading - trailing)
  (pulse,
    { leadingEdge := leadingEdge
      trailingEdge :=
        { t with phase := tPhase, osc := tOsc, previousInput := tPreviousInput }
      pulseWidth := p.pulseWidth })

/-- `AntiAliasedPulseOscillator::reset ()`: resets both cores. -/
def reset (p : AntiAliasedPulseOscillator) : AntiAliasedPulseOscillator :=
  { p with leadingEdge := p.leadingEdge.reset, trailingEdge := p.trailingEdge.reset }

end AntiAliasedPulseOscillator

/-- Closed form of one saw step (definitional unfolding). -/
theorem sawGetNextSample_def (env : DspEnv)
    (s : AntiAliasedSawOscillator) :
    AntiAliasedSawOscillator.getNextSample env s =
      ((hfCompA0 * (0.5 * (s.osc + env.sin2pi (s.phase + s.osc * s.beta)))
          + hfCompA1 * s.previousInput - (0.376 - 0.752 * s.w))
        / jmax minNorm (1 - 2 * s.w),
       { s with
         phase := if 1 ≤ s.phase + s.w then s.phase + s.w - 1 else s.phase + s.w
         osc := 0.5 * (s.osc + env.sin2pi (s.phase + s.osc * s.beta))
         previousInput := 0.5 * (s.osc + env.sin2pi (s.phase + s.osc * s.beta)) }) :=
  rfl

/-- Closed form of one pulse step (definitional unfolding). -/
theorem pulseGetNextSample_def (env : DspEnv)
    (p : AntiAliasedPulseOscillator) :
    AntiAliasedPulseOscillator.getNextSample env p =
      (jlimit (-1) 1 ((p.leadingEdge.getNextSample env).1 -
          ((hfCompA0 * (0.5 * (p.trailingEdge.osc +
                env.sin2pi (wrapPhase ((p.leadingEdge.getNextSample env).2.phase
                    + p.pulseWidth) + p.trailingEdge.osc * p.trailingEdge.beta)))
              + hfCompA1 * p.trailingEdge.previousInput
              - (0.376 - 0.752 * p.trailingEdge.w))
            / jmax minNorm (1 - 2 * p.trailingEdge.w))),
       { leadingEdge := (p.leadingEdge.getNextSample env).2
         trailingEdge :=
           { p.trailingEdge with
             phase :=
               if 1 ≤ wrapPhase ((p.leadingEdge.getNextSample env).2.phase
                       + p.pulseWidth) + p.trailingEdge.w then
                 wrapPhase ((p.leadingEdge.getNextSample env).2.phase
                     + p.pulseWidth) + p.trailingEdge.w - 1
               else
                 wrapPhase ((p.leadingEdge.getNextSample env).2.phase
                     + p.pulseWidth) + p.trailingEdge.w
             osc := 0.5 * (p.trailingEdge.osc +
                 env.sin2pi (wrapPhase ((p.leadingEdge.getNextSample env).2.phase
                     + p.pulseWidth) + p.trailingEdge.osc * p.trailingEdge.beta))
             previousInput := 0.5 * (p.trailingEdge.osc +
                 env.sin2pi (wrapPhase ((p.leadingEdge.getNextSample env).2.phase
                     + p.pulseWidth) + p.trailingEdge.osc * p.trailingEdge.beta)) }
         pulseWidth := p.pulseWidth }) :=
  rfl

/-- `jlimit` really clamps: the result lies between the (ordered) limits. -/
theorem jlimit_bounds (lo hi v : ℚ) (h : lo ≤ hi) :
    lo ≤ jlimit lo hi v ∧ jlimit lo hi v ≤ hi := by
  rw [jlimit]
  split_ifs <;> exact ⟨by linarith, by linarith⟩

/-- **C3.**  For every PulseOscillator state satisfying the reachable-state
invariants (leading phase in `[0, 1)`, both normalised frequencies in
`[0, 0.49]`, pulse width in `[0.01, 0.99]`), `getNextSample` first runs the
leading core's full step to obtain `L`; computes an effective trailing phase
equal to `(leading post-step phase + pulseWidth) mod 1`; runs the trailing
core's saw body with that effective phase in place of its stored phase
(updating the trailing `osc` and `previousInput`) to obtain `T`; stores
`trailing phase = (effective phase + trailing w) mod 1`; and returns
`clamp (L − T, −1, 1)`, so the output lies in `[−1, 1]`.  Moreover
`setPulseWidth pw` stores `clamp (pw, 0.01, 0.99)` and changes nothing
else. -/
theorem pulseOsc_getNextSample_spec (env : DspEnv) (p : AntiAliasedPulseOscillator)
    (hp0 : 0 ≤ p.leadingEdge.phase) (hp1 : p.leadingEdge.phase < 1)
    (hlw0 : 0 ≤ p.leadingEdge.w) (hlw1 : p.leadingEdge.w ≤ 0.49)
    (htw0 : 0 ≤ p.trailingEdge.w) (htw1 : p.trailingEdge.w ≤ 0.49)
    (hpw0 : 0.01 ≤ p.pulseWidth) (hpw1 : p.pulseWidth ≤ 0.99) :
    (AntiAliasedPulseOscillator.getNextSample env p).2.leadingEdge =
        (p.leadingEdge.getNextSample env).2 ∧
    (AntiAliasedPulseOscillator.getNextSample env p).2.trailingEdge.osc =
        (AntiAliasedSawOscillator.getNextSample env
          { p.trailingEdge with
            phase := Int.fract ((p.leadingEdge.getNextSample env).2.phase
                + p.pulseWidth) }).2.osc ∧
    (AntiAliasedPulseOscillator.getNextSample env p).2.trailingEdge.previousInput =
        (AntiAliasedSawOscillator.getNextSample env
          { p.trailingEdge with
            phase := Int.fract ((p.leadingEdge.getNextSample env).2.phase
                + p.pulseWidth) }).2.previousInput ∧
    (AntiAliasedPulseOscillator.getNextSample env p).2.trailingEdge.phase =
        Int.fract (Int.fract ((p.leadingEdge.getNextSample env).2.phase
            + p.pulseWidth) + p.trailingEdge.w) ∧
    (AntiAliasedPulseOscillator.getNextSample env p).2.trailingEdge.w =
        p.trailingEdge.w ∧
    (AntiAliasedPulseOscillator.getNextSample env p).2.trailingEdge.beta =
        p.trailingEdge.beta ∧
    (AntiAliasedPulseOscillator.getNextSample env p).2.pulseWidth = p.pulseWidth ∧
    (AntiAliasedPulseOscillator.getNextSample env p).1 =
        jlimit (-1) 1 ((p.leadingEdge.getNextSample env).1 -
          (AntiAliasedSawOscillator.getNextSample env
            { p.trailingEdge with
              phase := Int.fract ((p.leadingEdge.getNextSample env).2.phase
                  + p.pulseWidth) }).1) ∧
    -1 ≤ (AntiAliasedPulseOscillator.getNextSample env p).1 ∧
    (AntiAliasedPulseOscillator.getNextSample env p).1 ≤ 1 ∧
    (∀ (q : AntiAliasedPulseOscillator) (pw : ℚ),
      (q.setPulseWidth pw).pulseWidth = min 0.99 (max 0.01 pw) ∧
      (q.setPulseWidth pw).leadingEdge = q.leadingEdge ∧
      (q.setPulseWidth pw).trailingEdge = q.trailingEdge) := by
  have hlp0 : 0 ≤ (p.leadingEdge.getNextSample env).2.phase := by
    rw [sawGetNextSample_def]
    simp only
    split_ifs <;> linarith
  have hlp1 : (p.leadingEdge.getNextSample env).2.phase < 1 := by
    rw [sawGetNextSample_def]
    simp only
    split_ifs <;> linarith
  have hshift : wrapPhase ((p.leadingEdge.getNextSample env).2.phase + p.pulseWidth)
      = Int.fract ((p.leadingEdge.getNextSample env).2.phase + p.pulseWidth) :=
    wrapPhase_eq_fract _ (by linarith)
  have heff0 : 0 ≤ Int.fract ((p.leadingEdge.getNextSample env).2.phase
      + p.pulseWidth) := Int.fract_nonneg _
  have heff1 : Int.fract ((p.leadingEdge.getNextSample env).2.phase
      + p.pulseWidth) < 1 := Int.fract_lt_one _
  have htp : (if 1 ≤ Int.fract ((p.leadingEdge.getNextSample env).2.phase
          + p.pulseWidth) + p.trailingEdge.w then
        Int.fract ((p.leadingEdge.getNextSample env).2.phase + p.pulseWidth)
          + p.trailingEdge.w - 1
      else
        Int.fract ((p.leadingEdge.getNextSample env).2.phase + p.pulseWidth)
          + p.trailingEdge.w)
      = Int.fract (Int.fract ((p.leadingEdge.getNextSample env).2.phase
          + p.pulseWidth) + p.trailingEdge.w) :=
    condSub_eq_fract _ (by linarith) (by linarith)
  have hbounds := jlimit_bounds (-1) 1
    ((p.leadingEdge.getNextSample env).1 -
      ((hfCompA0 * (0.5 * (p.trailingEdge.osc +
            env.sin2pi (wrapPhase ((p.leadingEdge.getNextSample env).2.phase
                + p.pulseWidth) + p.trailingEdge.osc * p.trailingEdge.beta)))
          + hfCompA1 * p.trailingEdge.previousInput
          - (0.376 - 0.752 * p.trailingEdge.w))
        / jmax minNorm (1 - 2 * p.trailingEdge.w))) (by norm_num)
  refine ⟨rfl, ?_, ?_, ?_, rfl, rfl, rfl, ?_, ?_, ?_, ?_⟩
  · rw [pulseGetNextSample_def, hshift]
    rfl
  · rw [pulseGetNextSample_def, hshift]
    rfl
  · rw [pulseGetNextSample_def, hshift]
    exact htp
  · rw [pulseGetNextSample_def, hshift]
    rfl
  · rw [pulseGetNextSample_def]
    exact hbounds.1
  · rw [pulseGetNextSample_def]
    exact hbounds.2
  · intro q pw
    refine ⟨?_, rfl, rfl⟩
    rw [AntiAliasedPulseOscillator.setPulseWidth,
      jlimit_eq_min_max _ _ _ (by norm_num)]

/-- **C3 witness.** -/
theorem pulseOsc_getNextSample_spec_witness :
    (0 ≤ ({} : AntiAliasedPulseOscillator).leadingEdge.phase ∧
     ({} : AntiAliasedPulseOscillator).leadingEdge.phase < 1 ∧
     0.01 ≤ ({} : AntiAliasedPulseOscillator).pulseWidth ∧
     ({} : AntiAliasedPulseOscillator).pulseWidth ≤ 0.99) ∧
    -1 ≤ (AntiAliasedPulseOscillator.getNextSample sampleEnv {}).1 ∧
    (AntiAliasedPulseOscillator.getNextSample sampleEnv {}).1 ≤ 1 ∧
    (AntiAliasedPulseOscillator.getNextSample sampleEnv {}).2.pulseWidth =
        ({} : AntiAliasedPulseOscillator).pulseWidth := by
  have h := pulseOsc_getNextSample_spec sampleEnv {}
    (show (0 : ℚ) ≤ 0 by norm_num) (show (0 : ℚ) < 1 by norm_num)
    (show (0 : ℚ) ≤ 0 by norm_num) (show (0 : ℚ) ≤ 0.49 by norm_num)
    (show (0 : ℚ) ≤ 0 by norm_num) (show (0 : ℚ) ≤ 0.49 by norm_num)
    (show (0.01 : ℚ) ≤ 0.5 by norm_num) (show (0.5 : ℚ) ≤ 0.99 by norm_num)
  exact ⟨⟨show (0 : ℚ) ≤ 0 by norm_num, show (0 : ℚ) < 1 by norm_num,
      show (0.01 : ℚ) ≤ 0.5 by norm_num, show (0.5 : ℚ) ≤ 0.99 by norm_num⟩,
    h.2.2.2.2.2.2.2.2.1, h.2.2.2.2.2.2.2.2.2.1, h.2.2.2.2.2.2.1⟩

/-- The repository's four operations on an `AntiAliasedPulseOscillator`
(`setFrequency`, `setPulseWidth`, `reset`, `getNextSample`). -/
inductive PulseOp where
  | setFrequency (newFrequency newSampleRate : ℚ)
  | setPulseWidth (newPulseWidth : ℚ)
  | reset
  | next

/-- Apply one operation to a pulse oscillator (the sample produced by
`getNextSample` is discarded; only the state matters here). -/
def applyPulseOp (env : DspEnv) (p : AntiAliasedPulseOscillator) :
    PulseOp → AntiAliasedPulseOscillator
  | .setFrequency f sr => p.setFrequency f sr
  | .setPulseWidth pw => p.setPulseWidth pw
  | .reset => p.reset
  | .next => (p.getNextSample env).2

/-- Run a sequence of operations from the freshly constructed oscillator. -/
def runPulseOps (env : DspEnv) (ops : List PulseOp) : AntiAliasedPulseOscillator :=
  ops.foldl (applyPulseOp env) {}

/-- Every single operation preserves "both cores share `w` and `beta`". -/
theorem applyPulseOp_preserves_cores (env : DspEnv)
    (p : AntiAliasedPulseOscillator) (op : PulseOp)
    (h1 : p.leadingEdge.w = p.trailingEdge.w)
    (h2 : p.leadingEdge.beta = p.trailingEdge.beta) :
    (applyPulseOp env p op).leadingEdge.w = (applyPulseOp env p op).trailingEdge.w ∧
    (applyPulseOp env p op).leadingEdge.beta =
      (applyPulseOp env p op).trailingEdge.beta := by
  cases op with
  | setFrequency f sr =>
    by_cases hsr : sr ≤ 0
    · exact ⟨by simpa [applyPulseOp, AntiAliasedPulseOscillator.setFrequency,
          AntiAliasedSawOscillator.setFrequency, hsr] using h1,
        by simpa [applyPulseOp, AntiAliasedPulseOscillator.setFrequency,
          AntiAliasedSawOscillator.setFrequency, hsr] using h2⟩
    · constructor <;>
        simp [applyPulseOp, AntiAliasedPulseOscillator.setFrequency,
          AntiAliasedSawOscillator.setFrequency, hsr]
  | setPulseWidth pw => exact ⟨h1, h2⟩
  | reset => exact ⟨h1, h2⟩
  | next => exact ⟨h1, h2⟩

/-- **C9.**  For every sequence of `setFrequency` / `setPulseWidth` / `reset`
/ `getNextSample` calls applied from the initial state, the leading and
trailing SawCores hold identical `w` and identical `beta`: the operations
make the cores differ only in their running `phase` / `osc` /
`previousInput`. -/
theorem pulseOsc_cores_share_w_beta (env : DspEnv) (ops : List PulseOp) :
    (runPulseOps env ops).leadingEdge.w = (runPulseOps env ops).trailingEdge.w ∧
    (runPulseOps env ops).leadingEdge.beta =
      (runPulseOps env ops).trailingEdge.beta := by
  suffices h : ∀ (l : List PulseOp) (p : AntiAliasedPulseOscillator),
      p.leadingEdge.w = p.trailingEdge.w →
      p.leadingEdge.beta = p.trailingEdge.beta →
      (List.foldl (applyPulseOp env) p l).leadingEdge.w =
          (List.foldl (applyPulseOp env) p l).trailingEdge.w ∧
        (List.foldl (applyPulseOp env) p l).leadingEdge.beta =
          (List.foldl (applyPulseOp env) p l).trailingEdge.beta by
    exact h ops {} rfl rfl
  intro l
  induction l with
  | nil => exact fun p h1 h2 => ⟨h1, h2⟩
  | cons op rest ih =>
    intro p h1 h2
    rw [List.foldl_cons]
    have h := applyPulseOp_preserves_cores env p op h1 h2
    exact ih _ h.1 h.2

/-- One snapshot of the three shared parameter atomics
(`gainParam`, `pulseWidthParam`, `filterCutoffParam`) read by a voice. -/
structure Params where
  gainDb : ℚ
  pulseWidth : ℚ
  filterControl : ℚ

/-- State of `AntiAliasedVoice` (src/PluginProcessor.cpp), together with the
`juce::SynthesiserVoice` base-class state the code uses: `currentlyPlayingNote`
(set by the `Synthesiser` before `startNote`, `-1` after `clearCurrentNote`;
`isVoiceActive()` is `currentlyPlayingNote >= 0`), the voice's playback
sample rate (`getSampleRate()`), and the `juce::IIRFilter` member as its
coefficients plus its two-sample delay line (zeroed by `reset()`). -/
structure AntiAliasedVoice where
  pulseOsc : AntiAliasedPulseOscillator := {}
  currentLevel : ℚ := 0
  currentFrequency : ℚ := 0
  isActive : Bool := false
  lowPassCoefficients : IIRCoefficients := ⟨0, 0, 0, 0, 0⟩
  lowPassState : ℚ × ℚ := (0, 0)
  currentSampleRate : ℚ := 44100
  lastFilterCutoff : ℚ := -1
  currentlyPlayingNote : ℤ := -1
  sampleRate : ℚ := 0
deriving DecidableEq, Repr

namespace AntiAliasedVoice

/-- `AntiAliasedVoice::updateFilterCoefficients ()`: maps the filter control
linearly from `[0, 1]` onto cutoff `[sampleRate·0.45, 200]` Hz and installs
low-pass coefficients for it; no-op when `currentSampleRate <= 0`. -/
def updateFilterCoefficients (env : DspEnv) (ps : Params) (v : AntiAliasedVoice) :
    AntiAliasedVoice :=
  if v.currentSampleRate ≤ 0 then v
  else
    let smoothingAmount := ps.filterControl
    let maxCutoff := v.currentSampleRate * 0.45
    let minCutoff : ℚ := 200
    let cutoff := jmap smoothingAmount 0 1 maxCutoff minCutoff
    { v with lowPassCoefficients := env.makeLowPass v.currentSampleRate cutoff }

/-- `AntiAliasedVoice::startNote (midiNoteNumber, velocity, ...)`.  When the
sample rate is invalid the code calls `clearCurrentNote()` and returns. -/
def startNote (env : DspEnv) (ps : Params) (v : AntiAliasedVoice)
    (midiNoteNumber : ℤ) (velocity : ℚ) : AntiAliasedVoice :=
  if v.sampleRate ≤ 0 then { v with currentlyPlayingNote := -1 }
  else
    let v1 := { v with
      currentLevel := velocity
      currentFrequency := env.noteToHz midiNoteNumber }
    let v2 := { v1 with
      pulseOsc := ((v1.pulseOsc.reset).setPulseWidth ps.pulseWidth).setFrequency
        v1.currentFrequency v1.sampleRate
      currentSampleRate := v1.sampleRate }
    let v3 := updateFilterCoefficients env ps v2
    let v4 := { v3 with lowPassState := (0, 0) }
    { v4 with isActive := true }

/-- `AntiAliasedVoice::stopNote (velocity, allowTailOff)`: ignores both
arguments' values, clears the playing note, resets the oscillator,
deactivates, zeroes the level. -/
def stopNote (v : AntiAliasedVoice) (velocity : ℚ) (allowTailOff : Bool) :
    AntiAliasedVoice :=
  { v with
    currentlyPlayingNote := -1
    pulseOsc := v.pulseOsc.reset
    isActive := false
    currentLevel := 0 }

end AntiAliasedVoice

/-- `buffer.addSample (channel, i, x)` at one index of one channel:
adds `x` to element `i`, leaves everything else (including out-of-range
indices) unchanged. -/
def addAt : List ℚ → ℕ → ℚ → List ℚ
  | [], _, _ => []
  | a :: t, 0, x => (a + x) :: t
  | a :: t, n + 1, x => a :: addAt t n x

/-- The values the per-sample loop of `renderNextBlock` produces, in order:
`value = lowPass.processSingleSampleRaw (pulseOsc.getNextSample () * level *
gain)`, threading the oscillator and filter state. -/
def renderValues (env : DspEnv) (coeffs : IIRCoefficients) (level gain : ℚ) :
    ℕ → AntiAliasedPulseOscillator → ℚ × ℚ → List ℚ
  | 0, _, _ => []
  | n + 1, osc, st =>
    let oscStep := osc.getNextSample env
    let filt := env.iirStep coeffs (oscStep.1 * level * gain) st
    filt.1 :: renderValues env coeffs level gain n oscStep.2 filt.2

/-- The per-sample loop of `renderNextBlock`: for each of `n` samples,
compute the value and add it (via `addSample`) to every channel at the
current index, then advance the index and the oscillator/filter state. -/
def renderLoop (env : DspEnv) (coeffs : IIRCoefficients) (level gain : ℚ) :
    ℕ → ℕ → AntiAliasedPulseOscillator → ℚ × ℚ → List (List ℚ) →
      AntiAliasedPulseOscillator × (ℚ × ℚ) × List (List ℚ)
  | 0, _, osc, st, buf => (osc, st, buf)
  | n + 1, idx, osc, st, buf =>
    let oscStep := osc.getNextSample env
    let filt := env.iirStep coeffs (oscStep.1 * level * gain) st
    renderLoop env coeffs level gain n (idx + 1) oscStep.2 filt.2
      (buf.map (fun ch => addAt ch idx filt.1))

namespace AntiAliasedVoice

/-- The once-per-block head of `renderNextBlock` (after the activity and
sample-rate guards): refresh oscillator frequency and pulse width, cache the
sample rate, and recompute the filter coefficients when the filter control
moved by more than `1.0e-3`. -/
def blockVoice (env : DspEnv) (ps : Params) (v : AntiAliasedVoice) :
    AntiAliasedVoice :=
  let v1 := { v with
    pulseOsc := (v.pulseOsc.setFrequency v.currentFrequency v.sampleRate).setPulseWidth
      ps.pulseWidth
    currentSampleRate := v.sampleRate }
  if |ps.filterControl - v1.lastFilterCutoff| > 0.001 then
    updateFilterCoefficients env ps { v1 with lastFilterCutoff := ps.filterControl }
  else v1

/-- `AntiAliasedVoice::renderNextBlock (outputBuffer, startSample,
numSamples)`: returns the updated voice and buffer. -/
def renderNextBlock (env : DspEnv) (ps : Params) (v : AntiAliasedVoice)
    (outputBuffer : List (List ℚ)) (startSample numSamples : ℕ) :
    AntiAliasedVoice × List (List ℚ) :=
  if v.currentlyPlayingNote < 0 ∨ v.isActive = false then (v, outputBuffer)
  else if v.sampleRate ≤ 0 then (v, outputBuffer)
  else
    let v2 := blockVoice env ps v
    let gain := env.dbToGain ps.gainDb
    let r := renderLoop env v2.lowPassCoefficients v2.currentLevel gain
      numSamples startSample v2.pulseOsc v2.lowPassState outputBuffer
    ({ v2 with pulseOsc := r.1, lowPassState := r.2.1 }, r.2.2)

end AntiAliasedVoice

/-- **C4.**  `startNote`: with an invalid sample rate the voice just clears
its playing note (so `isVoiceActive()` is false and it renders nothing) and
is otherwise untouched; with a valid sample rate it stores the velocity as
the level, stores `getMidiNoteInHertz (midiNote)` (the library's equal-
tempered `440·2^((midiNote−69)/12)`) as the frequency, resets the pulse
oscillator and gives it the current pulse-width parameter and that
frequency, installs freshly computed low-pass coefficients, resets the
filter state, and marks the voice active. -/
theorem voice_startNote_spec (env : DspEnv) (ps : Params) (v : AntiAliasedVoice)
    (midiNoteNumber : ℤ) (velocity : ℚ) :
    (v.sampleRate ≤ 0 →
      AntiAliasedVoice.startNote env ps v midiNoteNumber velocity =
          { v with currentlyPlayingNote := -1 } ∧
      (AntiAliasedVoice.startNote env ps v midiNoteNumber velocity).currentlyPlayingNote
          < 0) ∧
    (0 < v.sampleRate →
      AntiAliasedVoice.startNote env ps v midiNoteNumber velocity =
        { v with
          currentLevel := velocity
          currentFrequency := env.noteToHz midiNoteNumber
          pulseOsc := ((v.pulseOsc.reset).setPulseWidth ps.pulseWidth).setFrequency
            (env.noteToHz midiNoteNumber) v.sampleRate
          currentSampleRate := v.sampleRate
          lowPassCoefficients := env.makeLowPass v.sampleRate
            (jmap ps.filterControl 0 1 (v.sampleRate * 0.45) 200)
          lowPassState := (0, 0)
          isActive := true }) := by
  constructor
  · intro h
    refine ⟨by simp [AntiAliasedVoice.startNote, h], ?_⟩
    simp [AntiAliasedVoice.startNote, h]
  · intro h
    have hne : ¬ v.sampleRate ≤ 0 := not_le.mpr h
    simp [AntiAliasedVoice.startNote, AntiAliasedVoice.updateFilterCoefficients, hne]

/-- **C4 witness.** -/
theorem voice_startNote_spec_witness :
    (({} : AntiAliasedVoice).sampleRate ≤ 0 ∧
     AntiAliasedVoice.startNote sampleEnv ⟨-12, 0.5, 0.5⟩ {} 69 1 =
        { ({} : AntiAliasedVoice) with currentlyPlayingNote := -1 }) ∧
    (0 < ({ sampleRate := 2 } : AntiAliasedVoice).sampleRate ∧
     (AntiAliasedVoice.startNote sampleEnv ⟨-12, 0.5, 0.5⟩
        { sampleRate := 2 } 69 1).isActive = true) := by
  constructor
  · exact ⟨le_refl 0,
      ((voice_startNote_spec sampleEnv ⟨-12, 0.5, 0.5⟩ {} 69 1).1 (le_refl 0)).1⟩
  · refine ⟨show (0 : ℚ) < 2 by norm_num, ?_⟩
    rw [(voice_startNote_spec sampleEnv ⟨-12, 0.5, 0.5⟩ { sampleRate := 2 } 69 1).2
      (show (0 : ℚ) < 2 by norm_num)]

/-- **C7.**  In a render call of an active voice (playing note, `isActive`,
valid sample rate), the low-pass coefficients are recomputed if and only if
the filter control differs from the last recorded value by more than
`1e-3` (the recorded value then becoming the control value); whenever
coefficients are computed — in `renderNextBlock` or on voice start, both of
which go through `updateFilterCoefficients` — the installed coefficients are
`makeLowPass` at `cutoff = jmap (c, 0, 1, maxHz, minHz)` with
`maxHz = sampleRate·0.45`, `minHz = 200`; and that map sends `c = 0` to
`sampleRate·0.45` and `c = 1` to `200`. -/
theorem voice_filter_recompute_spec (env : DspEnv) (ps : Params)
    (v : AntiAliasedVoice) (outputBuffer : List (List ℚ))
    (startSample numSamples : ℕ)
    (hact1 : 0 ≤ v.currentlyPlayingNote) (hact2 : v.isActive = true)
    (hsr : 0 < v.sampleRate) :
    (|ps.filterControl - v.lastFilterCutoff| > 0.001 →
      (AntiAliasedVoice.renderNextBlock env ps v outputBuffer startSample
          numSamples).1.lowPassCoefficients =
        env.makeLowPass v.sampleRate
          (jmap ps.filterControl 0 1 (v.sampleRate * 0.45) 200) ∧
      (AntiAliasedVoice.renderNextBlock env ps v outputBuffer startSample
          numSamples).1.lastFilterCutoff = ps.filterControl) ∧
    (¬ |ps.filterControl - v.lastFilterCutoff| > 0.001 →
      (AntiAliasedVoice.renderNextBlock env ps v outputBuffer startSample
          numSamples).1.lowPassCoefficients = v.lowPassCoefficients ∧
      (AntiAliasedVoice.renderNextBlock env ps v outputBuffer startSample
          numSamples).1.lastFilterCutoff = v.lastFilterCutoff) ∧
    (∀ (u : AntiAliasedVoice), 0 < u.currentSampleRate →
      (AntiAliasedVoice.updateFilterCoefficients env ps u).lowPassCoefficients =
        env.makeLowPass u.currentSampleRate
          (jmap ps.filterControl 0 1 (u.currentSampleRate * 0.45) 200)) ∧
    jmap 0 0 1 (v.sampleRate * 0.45) 200 = v.sampleRate * 0.45 ∧
    jmap 1 0 1 (v.sampleRate * 0.45) 200 = 200 := by
  have hguard : ¬ (v.currentlyPlayingNote < 0 ∨ v.isActive = false) := by
    rintro (h | h)
    · omega
    · rw [hact2] at h
      exact absurd h (by simp)
  have hne : ¬ v.sampleRate ≤ 0 := not_le.mpr hsr
  refine ⟨?_, ?_, ?_, ?_, ?_⟩
  · intro hc
    constructor <;>
      simp [AntiAliasedVoice.renderNextBlock, AntiAliasedVoice.blockVoice,
        AntiAliasedVoice.updateFilterCoefficients, hguard, hne, hc]
  · intro hc
    constructor <;>
      simp [AntiAliasedVoice.renderNextBlock, AntiAliasedVoice.blockVoice,
        AntiAliasedVoice.updateFilterCoefficients, hguard, hne, hc]
  · intro u hu
    simp [AntiAliasedVoice.updateFilterCoefficients, not_le.mpr hu]
  · rw [jmap]
    ring
  · rw [jmap]
    ring

/-- **C7 witness.** -/
theorem voice_filter_recompute_spec_witness :
    (0 ≤ ({ sampleRate := 2, isActive := true, currentlyPlayingNote := 60 } :
        AntiAliasedVoice).currentlyPlayingNote ∧
     ({ sampleRate := 2, isActive := true, currentlyPlayingNote := 60 } :
        AntiAliasedVoice).isActive = true ∧
     0 < ({ sampleRate := 2, isActive := true, currentlyPlayingNote := 60 } :
        AntiAliasedVoice).sampleRate) ∧
    jmap 0 0 1 (({ sampleRate := 2, isActive := true, currentlyPlayingNote := 60 } :
        AntiAliasedVoice).sampleRate * 0.45) 200 =
      ({ sampleRate := 2, isActive := true, currentlyPlayingNote := 60 } :
        AntiAliasedVoice).sampleRate * 0.45 := by
  have h := voice_filter_recompute_spec sampleEnv ⟨-12, 0.5, 0.5⟩
    { sampleRate := 2, isActive := true, currentlyPlayingNote := 60 } [] 0 0
    (show (0 : ℤ) ≤ 60 by norm_num) rfl (show (0 : ℚ) < 2 by norm_num)
  exact ⟨⟨show (0 : ℤ) ≤ 60 by norm_num, rfl, show (0 : ℚ) < 2 by norm_num⟩,
    h.2.2.2.1⟩

/-- One MIDI message in a `juce::MidiBuffer`, kept as an opaque payload with
its sample position (the repository's own code never inspects messages
directly; the synthesiser library consumes them). -/
structure MidiEvent where
  samplePosition : ℤ
  message : List ℕ

/-- Abstract interpretations of the host-side library machinery called by
`processBlock` but defined outside this repository:

* `processNextMidiBuffer kb events n` models
  `juce::MidiKeyboardState::processNextMidiBuffer`, merging editor-keyboard
  events into the block's event list and updating the keyboard state;
* `synthRender voices events buffer` models
  `juce::Synthesiser::renderNextBlock`, dispatching the events to the voices
  and letting every voice render into the buffer. -/
structure HostEnv where
  processNextMidiBuffer :
    List (ℤ × Bool) → List MidiEvent → ℕ → List (ℤ × Bool) × List MidiEvent
  synthRender :
    List AntiAliasedVoice → List MidiEvent → List (List ℚ) →
      List AntiAliasedVoice × List (List ℚ)

/-- A concrete (arbitrary) interpretation of the host-side machinery, used
only to instantiate universally quantified statements at concrete inputs. -/
def sampleHostEnv : HostEnv where
  processNextMidiBuffer := fun kb events _ => (kb, events)
  synthRender := fun voices _ buffer => (voices, buffer)

/-- State of `AudioPluginAudioProcessor`: the cached sample rate, the
synthesiser's voices (the constructor adds exactly 8 `AntiAliasedVoice`s),
and the editor keyboard state. -/
structure AudioPluginAudioProcessor where
  lastSampleRate : ℚ := 44100
  voices : List AntiAliasedVoice := List.replicate 8 {}
  keyboardState : List (ℤ × Bool) := []

/-- `juce::Synthesiser::allNotesOff (0, true)` as invoked by
`releaseResources`: with midi channel `0` the library calls
`voice->stopNote (1.0f, allowTailOff = true)` on every voice. -/
def allNotesOff (voices : List AntiAliasedVoice) : List AntiAliasedVoice :=
  voices.map (fun v => v.stopNote 1 true)

/-- `AudioPluginAudioProcessor::releaseResources ()`:
`synth.allNotesOff (0, true)`. -/
def releaseResources (proc : AudioPluginAudioProcessor) :
    AudioPluginAudioProcessor :=
  { proc with voices := allNotesOff proc.voices }

/-- **C8.**  `stopNote` marks the voice inactive immediately, resets its
pulse oscillator (zeroing both cores' `phase` / `osc` / `previousInput`) and
zeroes the stored velocity, for every starting state and irrespective of the
`allowTailOff` argument (and of the ignored velocity argument); consequently
after `releaseResources` (which runs `allNotesOff`) every voice of the
processor is inactive with its oscillator state zeroed. -/
theorem voice_stopNote_spec (v : AntiAliasedVoice) (velocity : ℚ)
    (allowTailOff : Bool) :
    AntiAliasedVoice.stopNote v velocity allowTailOff =
      { v with
        currentlyPlayingNote := -1
        pulseOsc := v.pulseOsc.reset
        isActive := false
        currentLevel := 0 } ∧
    (AntiAliasedVoice.stopNote v velocity allowTailOff).pulseOsc.leadingEdge.phase
        = 0 ∧
    (AntiAliasedVoice.stopNote v velocity allowTailOff).pulseOsc.leadingEdge.osc
        = 0 ∧
    (AntiAliasedVoice.stopNote v velocity
        allowTailOff).pulseOsc.leadingEdge.previousInput = 0 ∧
    (AntiAliasedVoice.stopNote v velocity allowTailOff).pulseOsc.trailingEdge.phase
        = 0 ∧
    (AntiAliasedVoice.stopNote v velocity allowTailOff).pulseOsc.trailingEdge.osc
        = 0 ∧
    (AntiAliasedVoice.stopNote v velocity
        allowTailOff).pulseOsc.trailingEdge.previousInput = 0 ∧
    (∀ (proc : AudioPluginAudioProcessor) (u : AntiAliasedVoice),
      u ∈ (releaseResources proc).voices →
      u.isActive = false ∧ u.currentLevel = 0 ∧ u.currentlyPlayingNote = -1 ∧
      u.pulseOsc.leadingEdge.phase = 0 ∧ u.pulseOsc.leadingEdge.osc = 0 ∧
      u.pulseOsc.leadingEdge.previousInput = 0 ∧
      u.pulseOsc.trailingEdge.phase = 0 ∧ u.pulseOsc.trailingEdge.osc = 0 ∧
      u.pulseOsc.trailingEdge.previousInput = 0) := by
  refine ⟨rfl, rfl, rfl, rfl, rfl, rfl, rfl, ?_⟩
  intro proc u hu
  simp only [releaseResources, allNotesOff, List.mem_map] at hu
  obtain ⟨w, _, rfl⟩ := hu
  exact ⟨rfl, rfl, rfl, rfl, rfl, rfl, rfl, rfl, rfl⟩

/-- **C8 witness.** -/
theorem voice_stopNote_spec_witness :
    (AntiAliasedVoice.stopNote ({} : AntiAliasedVoice) 1 true).pulseOsc.leadingEdge.phase
        = 0 ∧
    (AntiAliasedVoice.stopNote ({} : AntiAliasedVoice) 1 true).isActive = false ∧
    (AntiAliasedVoice.stopNote ({} : AntiAliasedVoice) 1 true).currentlyPlayingNote
        = -1 := by
  have h := voice_stopNote_spec {} 1 true
  have hmem := h.2.2.2.2.2.2.2 {} (AntiAliasedVoice.stopNote {} 1 true)
    (by simp [releaseResources, allNotesOff])
  exact ⟨h.2.1, hmem.1, hmem.2.2.1⟩

/-- Sample `j` of channel `c` of a buffer (as an option, `none` when out of
range). -/
def sampleAt (b : List (List ℚ)) (c j : ℕ) : Option ℚ :=
  (b[c]?).bind (fun ch => ch[j]?)

/-- `addAt` changes exactly index `i`, adding `x` there. -/
theorem addAt_getElem? (l : List ℚ) : ∀ (i j : ℕ) (x : ℚ),
    (addAt l i x)[j]? = if j = i then (l[j]?).map (· + x) else l[j]? := by
  induction l with
  | nil => intro i j x; simp [addAt]
  | cons a t ih =>
    intro i j x
    cases i with
    | zero =>
      cases j with
      | zero => simp [addAt]
      | succ j => simp [addAt]
    | succ i =>
      cases j with
      | zero => simp [addAt]
      | succ j => simp [addAt, ih i j x]

/-- Adding a value at one index of every channel, seen through `sampleAt`. -/
theorem sampleAt_map_addAt (buf : List (List ℚ)) (idx : ℕ) (x : ℚ) (c j : ℕ) :
    sampleAt (buf.map (fun ch => addAt ch idx x)) c j =
      if j = idx then (sampleAt buf c j).map (· + x) else sampleAt buf c j := by
  cases hb : buf[c]? with
  | none => simp [sampleAt, List.getElem?_map, hb]
  | some ch => simp [sampleAt, List.getElem?_map, hb, addAt_getElem?]

/-- The render loop touches exactly the indices `[idx, idx + n)`, adding the
`renderValues` stream there (the same value on every channel). -/
theorem renderLoop_sampleAt (env : DspEnv) (coeffs : IIRCoefficients)
    (level gain : ℚ) :
    ∀ (n idx : ℕ) (osc : AntiAliasedPulseOscillator) (st : ℚ × ℚ)
      (buf : List (List ℚ)) (c j : ℕ),
      sampleAt (renderLoop env coeffs level gain n idx osc st buf).2.2 c j =
        if idx ≤ j ∧ j < idx + n then
          (sampleAt buf c j).map
            (· + (renderValues env coeffs level gain n osc st).getD (j - idx) 0)
        else sampleAt buf c j := by
  intro n
  induction n with
  | zero =>
    intro idx osc st buf c j
    rw [renderLoop, if_neg (by omega)]
  | succ n ih =>
    intro idx osc st buf c j
    simp only [renderLoop, renderValues]
    rw [ih]
    by_cases h1 : idx + 1 ≤ j ∧ j < idx + 1 + n
    · rw [if_pos h1, sampleAt_map_addAt, if_neg (by omega), if_pos (by omega)]
      have hj : j - idx = (j - (idx + 1)) + 1 := by omega
      rw [hj]
      rfl
    · rw [if_neg h1, sampleAt_map_addAt]
      by_cases h2 : j = idx
      · rw [if_pos h2, if_pos (by omega)]
        subst h2
        simp
      · rw [if_neg h2, if_neg (by omega)]

/-- **C10.**  `renderNextBlock` modifies the buffer only at sample indices
`startSample ≤ j < startSample + numSamples`; each modified entry equals its
previous value plus the voice's computed sample for that index (the
`renderValues` stream of the block-updated voice), with the same value added
to every channel; entries outside the range are unchanged; and with an
inactive voice (no playing note or `isActive` false) or a non-positive
sample rate the whole buffer is unchanged. -/
theorem voice_renderNextBlock_frame (env : DspEnv) (ps : Params)
    (v : AntiAliasedVoice) (outputBuffer : List (List ℚ))
    (startSample numSamples : ℕ) :
    ((v.currentlyPlayingNote < 0 ∨ v.isActive = false ∨ v.sampleRate ≤ 0) →
      (AntiAliasedVoice.renderNextBlock env ps v outputBuffer startSample
          numSamples).2 = outputBuffer) ∧
    (0 ≤ v.currentlyPlayingNote → v.isActive = true → 0 < v.sampleRate →
      (∀ (c j : ℕ), j < startSample ∨ startSample + numSamples ≤ j →
        sampleAt (AntiAliasedVoice.renderNextBlock env ps v outputBuffer
            startSample numSamples).2 c j = sampleAt outputBuffer c j) ∧
      (∀ (c j : ℕ), startSample ≤ j → j < startSample + numSamples →
        sampleAt (AntiAliasedVoice.renderNextBlock env ps v outputBuffer
            startSample numSamples).2 c j =
          (sampleAt outputBuffer c j).map
            (· + (renderValues env
                (AntiAliasedVoice.blockVoice env ps v).lowPassCoefficients
                (AntiAliasedVoice.blockVoice env ps v).currentLevel
                (env.dbToGain ps.gainDb) numSamples
                (AntiAliasedVoice.blockVoice env ps v).pulseOsc
                (AntiAliasedVoice.blockVoice env ps v).lowPassState).getD
              (j - startSample) 0))) := by
  constructor
  · intro h
    by_cases hg : v.currentlyPlayingNote < 0 ∨ v.isActive = false
    · simp [AntiAliasedVoice.renderNextBlock, hg]
    · have hsr : v.sampleRate ≤ 0 := by tauto
      simp [AntiAliasedVoice.renderNextBlock, hg, hsr]
  · intro h1 h2 h3
    have hguard : ¬ (v.currentlyPlayingNote < 0 ∨ v.isActive = false) := by
      rintro (h | h)
      · omega
      · rw [h2] at h
        exact absurd h (by simp)
    have hne : ¬ v.sampleRate ≤ 0 := not_le.mpr h3
    constructor
    · intro c j hj
      simp only [AntiAliasedVoice.renderNextBlock, if_neg hguard, if_neg hne]
      rw [renderLoop_sampleAt, if_neg (by omega)]
    · intro c j hj1 hj2
      simp only [AntiAliasedVoice.renderNextBlock, if_neg hguard, if_neg hne]
      rw [renderLoop_sampleAt, if_pos (by omega)]

/-- **C10 witness.** -/
theorem voice_renderNextBlock_frame_witness :
    (AntiAliasedVoice.renderNextBlock sampleEnv ⟨-12, 0.5, 0.5⟩ {}
        [[1, 2, 3]] 1 1).2 = [[1, 2, 3]] ∧
    sampleAt (AntiAliasedVoice.renderNextBlock sampleEnv ⟨-12, 0.5, 0.5⟩
        { sampleRate := 2, isActive := true, currentlyPlayingNote := 60 }
        [[1, 2, 3]] 1 1).2 0 0 = sampleAt [[1, 2, 3]] 0 0 ∧
    sampleAt (AntiAliasedVoice.renderNextBlock sampleEnv ⟨-12, 0.5, 0.5⟩
        { sampleRate := 2, isActive := true, currentlyPlayingNote := 60 }
        [[1, 2, 3]] 1 1).2 0 1 =
      (sampleAt [[1, 2, 3]] 0 1).map
        (· + (renderValues sampleEnv
            (AntiAliasedVoice.blockVoice sampleEnv ⟨-12, 0.5, 0.5⟩
              { sampleRate := 2, isActive := true,
                currentlyPlayingNote := 60 }).lowPassCoefficients
            (AntiAliasedVoice.blockVoice sampleEnv ⟨-12, 0.5, 0.5⟩
              { sampleRate := 2, isActive := true,
                currentlyPlayingNote := 60 }).currentLevel
            (DspEnv.dbToGain sampleEnv (-12)) 1
            (AntiAliasedVoice.blockVoice sampleEnv ⟨-12, 0.5, 0.5⟩
              { sampleRate := 2, isActive := true,
                currentlyPlayingNote := 60 }).pulseOsc
            (AntiAliasedVoice.blockVoice sampleEnv ⟨-12, 0.5, 0.5⟩
              { sampleRate := 2, isActive := true,
                currentlyPlayingNote := 60 }).lowPassState).getD 0 0) := by
  refine ⟨?_, ?_, ?_⟩
  · exact (voice_renderNextBlock_frame sampleEnv ⟨-12, 0.5, 0.5⟩ {}
      [[1, 2, 3]] 1 1).1 (Or.inl (show (-1 : ℤ) < 0 by norm_num))
  · exact (((voice_renderNextBlock_frame sampleEnv ⟨-12, 0.5, 0.5⟩
      { sampleRate := 2, isActive := true, currentlyPlayingNote := 60 }
      [[1, 2, 3]] 1 1).2 (show (0 : ℤ) ≤ 60 by norm_num) rfl
      (show (0 : ℚ) < 2 by norm_num)).1) 0 0 (by omega)
  · exact (((voice_renderNextBlock_frame sampleEnv ⟨-12, 0.5, 0.5⟩
      { sampleRate := 2, isActive := true, currentlyPlayingNote := 60 }
      [[1, 2, 3]] 1 1).2 (show (0 : ℤ) ≤ 60 by norm_num) rfl
      (show (0 : ℚ) < 2 by norm_num)).2) 0 1 (by omega) (by omega)

/-- `buffer.clear()`: every sample of every channel becomes zero (the shape
is unchanged). -/
def clearBuffer (b : List (List ℚ)) : List (List ℚ) :=
  b.map (fun ch => ch.map (fun _ => 0))

/-- `buffer.getNumSamples()` (channels share one length; empty buffer: 0). -/
def bufferNumSamples (b : List (List ℚ)) : ℕ :=
  (b.head?.map List.length).getD 0

/-- `AudioPluginAudioProcessor::processBlock (buffer, midiMessages)`:
returns the updated processor, the output buffer, and the MIDI buffer (the
code clears it before returning on every path). -/
def processBlock (henv : HostEnv) (proc : AudioPluginAudioProcessor)
    (buffer : List (List ℚ)) (midiMessages : List MidiEvent) :
    AudioPluginAudioProcessor × List (List ℚ) × List MidiEvent :=
  if proc.lastSampleRate ≤ 0 then
    (proc, clearBuffer buffer, [])
  else
    let kb := henv.processNextMidiBuffer proc.keyboardState midiMessages
      (bufferNumSamples buffer)
    let r := henv.synthRender proc.voices kb.2 (clearBuffer buffer)
    ({ proc with keyboardState := kb.1, voices := r.1 }, r.2, [])

/-- **C6.**  Whenever `processBlock` runs with a cached sample rate `≤ 0`,
it writes exactly zero samples (on return every sample of every channel of
the buffer is zero), empties the MIDI event buffer, and returns with the
processor state — voices and keyboard state included — untouched, so no
voice is rendered and no keyboard state is consumed. -/
theorem processBlock_invalid_rate (henv : HostEnv)
    (proc : AudioPluginAudioProcessor) (buffer : List (List ℚ))
    (midiMessages : List MidiEvent) (h : proc.lastSampleRate ≤ 0) :
    processBlock henv proc buffer midiMessages =
      (proc, clearBuffer buffer, []) ∧
    (∀ ch ∈ (processBlock henv proc buffer midiMessages).2.1,
      ∀ x ∈ ch, x = 0) ∧
    (processBlock henv proc buffer midiMessages).2.2 = [] ∧
    (processBlock henv proc buffer midiMessages).1 = proc := by
  have he : processBlock henv proc buffer midiMessages =
      (proc, clearBuffer buffer, []) := by
    simp [processBlock, h]
  refine ⟨he, ?_, by rw [he], by rw [he]⟩
  rw [he]
  intro ch hch x hx
  simp only [clearBuffer, List.mem_map] at hch
  obtain ⟨ch0, _, rfl⟩ := hch
  simp only [List.mem_map] at hx
  obtain ⟨a, _, hfa⟩ := hx
  exact hfa.symm

/-- **C6 witness.** -/
theorem processBlock_invalid_rate_witness :
    ({ lastSampleRate := 0 } : AudioPluginAudioProcessor).lastSampleRate ≤ 0 ∧
    processBlock sampleHostEnv { lastSampleRate := 0 } [[1, 2], [3]]
        [⟨0, [144, 60, 100]⟩] =
      ({ lastSampleRate := 0 }, clearBuffer [[1, 2], [3]], []) :=
  ⟨le_refl 0,
    (processBlock_invalid_rate sampleHostEnv { lastSampleRate := 0 }
      [[1, 2], [3]] [⟨0, [144, 60, 100]⟩] (le_refl 0)).1⟩
